import Mathlib

/-!
Verification of the PCM-to-WAV container encoder `pcmToWav` of the
test-gemini-voices repository (the synthesize endpoint's helper).

The encoder is shallowly embedded: a Node.js `Buffer` is a `List Nat`
of byte values, JavaScript runtime values that can reach the function's
parameters are the inductive `JSVal` (numbers are modelled as exact
rationals, which faithfully represents every value the claims speak
about: positive integers, zero, negatives and non-integral numbers),
and a thrown exception is the `Except.error` branch.  Node's
`Buffer.writeUInt32LE` / `Buffer.writeUInt16LE` validate that the value
fits the field width and that the offset is in bounds, throwing
`ERR_OUT_OF_RANGE` otherwise; this is modelled by `EncodeError.rangeError`.
The argument-validation `throw new Error(...)` calls at the top of
`pcmToWav` are the spec's `InvalidArgument` class, modelled by
`EncodeError.invalidArgument`.
-/

namespace WavEnc

/-- JavaScript runtime values relevant to the parameters of `pcmToWav`.
Strings are represented by the bytes of their UTF-8 encoding (which is
empty exactly when the string is empty, and is what `Buffer.from` yields
on a string); `other` stands for any value that is neither null,
undefined, a number, a string, a `Buffer` nor a `Uint8Array` (such an
object is truthy and fails the `Buffer.isBuffer` / `instanceof` tests). -/
inductive JSVal : Type where
  | null : JSVal
  | undef : JSVal
  | str : List Nat → JSVal
  | buf : List Nat → JSVal
  | u8 : List Nat → JSVal
  | num : ℚ → JSVal
  | other : JSVal
deriving DecidableEq

/-- JavaScript falsiness of a `JSVal` (the `!pcmData` test at line 20):
null, undefined, the empty string and the number 0 are falsy; every
object, including a zero-length Buffer or Uint8Array, is truthy. -/
def jsFalsy : JSVal → Bool
  | .null => true
  | .undef => true
  | .str s => s.isEmpty
  | .buf _ => false
  | .u8 _ => false
  | .num q => q == 0
  | .other => false

/-- The type test at line 20: `typeof pcmData === 'string' ||
Buffer.isBuffer(pcmData) || pcmData instanceof Uint8Array`. -/
def isBytesLike : JSVal → Bool
  | .str _ => true
  | .buf _ => true
  | .u8 _ => true
  | _ => false

/-- The numeric-parameter validation of lines 24, 28, 32:
`typeof v === 'number' && v > 0 && Number.isInteger(v)`. -/
def isPositiveInt : JSVal → Bool
  | .num q => decide (0 < q) && decide (q.den = 1)
  | _ => false

/-- The natural number a validated positive-integer parameter denotes. -/
def asNat : JSVal → Nat
  | .num q => q.num.toNat
  | _ => 0

/-- Model of `Buffer.from` on the values accepted by the type test (line 39):
a Buffer is used as is, a Uint8Array is copied byte for byte, a string
is UTF-8 encoded (we carry the encoded bytes in the model). -/
def toBytes : JSVal → List Nat
  | .str s => s
  | .buf b => b
  | .u8 b => b
  | _ => []

/-- Errors the encoder can produce: the validation failures of lines
20-34 and 41 (the spec's `InvalidArgument`), and Node's
`ERR_OUT_OF_RANGE` from a bounds-checked `Buffer.writeUIntNLE` call. -/
inductive EncodeError : Type where
  | invalidArgument : EncodeError
  | rangeError : EncodeError
deriving DecidableEq

/-- Write the bytes `s` into buffer `b` starting at offset `off`,
one byte per position, as `Buffer.write` with an ASCII string and
`Buffer.copy` do; writing past the end of the buffer is silently
truncated (`List.set` out of range is the identity), which matches
Node's truncating behaviour. -/
def writeBytes : List Nat → List Nat → Nat → List Nat
  | b, [], _ => b
  | b, v :: vs, off => writeBytes (b.set off v) vs (off + 1)

/-- The four bytes of the little-endian 32-bit encoding of `v`. -/
def u32LE (v : Nat) : List Nat :=
  [v % 256, v / 256 % 256, v / 65536 % 256, v / 16777216 % 256]

/-- The two bytes of the little-endian 16-bit encoding of `v`. -/
def u16LE (v : Nat) : List Nat :=
  [v % 256, v / 256 % 256]

/-- Model of `Buffer.writeUInt32LE(value, offset)`: Node validates
`0 <= value <= 0xffffffff` and `0 <= offset <= length - 4`, throwing
`ERR_OUT_OF_RANGE` otherwise, and writes the four little-endian bytes. -/
def writeUInt32LE (b : List Nat) (v off : Nat) : Except EncodeError (List Nat) :=
  if v < 4294967296 ∧ off + 4 ≤ b.length then
    .ok (writeBytes b (u32LE v) off)
  else
    .error .rangeError

/-- Model of `Buffer.writeUInt16LE(value, offset)`: Node validates
`0 <= value <= 0xffff` and `0 <= offset <= length - 2`, throwing
`ERR_OUT_OF_RANGE` otherwise, and writes the two little-endian bytes. -/
def writeUInt16LE (b : List Nat) (v off : Nat) : Except EncodeError (List Nat) :=
  if v < 65536 ∧ off + 2 ≤ b.length then
    .ok (writeBytes b (u16LE v) off)
  else
    .error .rangeError

/-- ASCII bytes of the tag written by `buffer.write('RIFF', 0)`. -/
def riffTag : List Nat := [82, 73, 70, 70]

/-- ASCII bytes of the tag written by `buffer.write('WAVE', 8)`. -/
def waveTag : List Nat := [87, 65, 86, 69]

/-- ASCII bytes of the tag written by `buffer.write('fmt ', 12)`. -/
def fmtTag : List Nat := [102, 109, 116, 32]

/-- ASCII bytes of the tag written by `buffer.write('data', 36)`. -/
def dataTag : List Nat := [100, 97, 116, 97]

/-- Reading a little-endian uint16 at `off`, as a standard WAV parser does. -/
def readUInt16LE (b : List Nat) (off : Nat) : Nat :=
  b.getD off 0 + 256 * b.getD (off + 1) 0

/-- Reading a little-endian uint32 at `off`, as a standard WAV parser does. -/
def readUInt32LE (b : List Nat) (off : Nat) : Nat :=
  b.getD off 0 + 256 * b.getD (off + 1) 0 + 65536 * b.getD (off + 2) 0
    + 16777216 * b.getD (off + 3) 0

/-- Shallow embedding of `pcmToWav(pcmData, sampleRate, channels,
sampleWidth)` (src/unnamed/part_001 lines 18-66), step for step:
validate the four arguments in source order, coerce `pcmData` to a byte
buffer, allocate a zero-filled buffer of `44 + dataLength` bytes, write
the twelve header fields at their fixed offsets (the `writeUIntNLE`
calls are fallible, as in Node), copy the PCM bytes at offset 44 and
return the buffer. -/
def pcmToWav (pcmData sampleRate channels sampleWidth : JSVal) :
    Except EncodeError (List Nat) :=
  if jsFalsy pcmData || ! isBytesLike pcmData then
    .error .invalidArgument
  else if ! isPositiveInt sampleRate then
    .error .invalidArgument
  else if ! isPositiveInt channels then
    .error .invalidArgument
  else if ! isPositiveInt sampleWidth then
    .error .invalidArgument
  else
    let pcmBuffer := toBytes pcmData
    let dataLength := pcmBuffer.length
    let buffer0 := List.replicate (44 + dataLength) 0
    let buffer1 := writeBytes buffer0 riffTag 0
    do
    let buffer2 ← writeUInt32LE buffer1 (36 + dataLength) 4
    let buffer3 := writeBytes buffer2 waveTag 8
    let buffer4 := writeBytes buffer3 fmtTag 12
    let buffer5 ← writeUInt32LE buffer4 16 16
    let buffer6 ← writeUInt16LE buffer5 1 20
    let buffer7 ← writeUInt16LE buffer6 (asNat channels) 22
    let buffer8 ← writeUInt32LE buffer7 (asNat sampleRate) 24
    let buffer9 ← writeUInt32LE buffer8
      (asNat sampleRate * asNat channels * asNat sampleWidth) 28
    let buffer10 ← writeUInt16LE buffer9 (asNat channels * asNat sampleWidth) 32
    let buffer11 ← writeUInt16LE buffer10 (asNat sampleWidth * 8) 34
    let buffer12 := writeBytes buffer11 dataTag 36
    let buffer13 ← writeUInt32LE buffer12 dataLength 40
    pure (writeBytes buffer13 pcmBuffer 44)

/-- The 44 header bytes the encoder produces for data length `n`,
sample rate `r`, channel count `c` and sample width `w`: the twelve
fields of the header at their fixed offsets, in order. -/
def wavHeaderBytes (n r c w : Nat) : List Nat :=
  riffTag ++ u32LE (36 + n) ++ waveTag ++ fmtTag ++ u32LE 16 ++ u16LE 1
    ++ u16LE c ++ u32LE r ++ u32LE (r * c * w) ++ u16LE (c * w)
    ++ u16LE (w * 8) ++ dataTag ++ u32LE n

/-- Writing bytes into a buffer never changes its length (Node buffers
are fixed-size). -/
@[simp]
theorem writeBytes_length (s : List Nat) : ∀ (b : List Nat) (off : Nat),
    (writeBytes b s off).length = b.length := by
  induction s with
  | nil => intro b off; rfl
  | cons v vs ih =>
    intro b off
    simp only [writeBytes, ih, List.length_set]

@[simp]
theorem riffTag_length : riffTag.length = 4 := rfl

@[simp]
theorem waveTag_length : waveTag.length = 4 := rfl

@[simp]
theorem fmtTag_length : fmtTag.length = 4 := rfl

@[simp]
theorem dataTag_length : dataTag.length = 4 := rfl

@[simp]
theorem u32LE_length (v : Nat) : (u32LE v).length = 4 := rfl

@[simp]
theorem u16LE_length (v : Nat) : (u16LE v).length = 2 := rfl

/-- Writing `s` at the exact boundary of the already-filled front part
replaces the next `s.length` bytes of the rest. -/
theorem writeBytes_fill (s : List Nat) : ∀ (done rest : List Nat) (off : Nat),
    off = done.length → s.length ≤ rest.length →
    writeBytes (done ++ rest) s off = (done ++ s) ++ rest.drop s.length := by
  induction s with
  | nil => intro done rest off hoff h; simp [writeBytes]
  | cons v vs ih =>
    intro done rest off hoff h
    cases rest with
    | nil => simp at h
    | cons r0 rest2 =>
      subst hoff
      rw [writeBytes, List.set_append_right _ _ (Nat.le_refl _), Nat.sub_self,
        List.set_cons_zero]
      have e : done ++ v :: rest2 = (done ++ [v]) ++ rest2 := by simp
      rw [e, ih (done ++ [v]) rest2 (done.length + 1) (by simp) (by simpa using h)]
      simp [List.append_assoc]

theorem drop_replicate (k m : Nat) :
    (List.replicate m (0 : Nat)).drop k = List.replicate (m - k) 0 := by
  induction k generalizing m with
  | zero => simp
  | succ k ih =>
    cases m with
    | zero => simp
    | succ m =>
      rw [List.replicate_succ, List.drop_succ_cons, ih,
        show m + 1 - (k + 1) = m - k from by omega]

theorem isPositiveInt_natCast {r : Nat} (hr : 0 < r) :
    isPositiveInt (JSVal.num (r : ℚ)) = true := by
  simp [isPositiveInt]
  exact_mod_cast hr

theorem isPositiveInt_natCast_false {r : Nat} (hr : ¬ 0 < r) :
    isPositiveInt (JSVal.num (r : ℚ)) = false := by
  have : r = 0 := by omega
  subst this
  simp [isPositiveInt]

theorem asNat_natCast (r : Nat) : asNat (JSVal.num (r : ℚ)) = r := by
  simp [asNat]

theorem writeUInt32LE_ok {b : List Nat} {v off : Nat} (hv : v < 4294967296)
    (hoff : off + 4 ≤ b.length) :
    writeUInt32LE b v off = .ok (writeBytes b (u32LE v) off) :=
  if_pos ⟨hv, hoff⟩

theorem writeUInt16LE_ok {b : List Nat} {v off : Nat} (hv : v < 65536)
    (hoff : off + 2 ≤ b.length) :
    writeUInt16LE b v off = .ok (writeBytes b (u16LE v) off) :=
  if_pos ⟨hv, hoff⟩

theorem writeUInt32LE_err {b : List Nat} {v off : Nat} (hv : ¬ v < 4294967296) :
    writeUInt32LE b v off = .error .rangeError :=
  if_neg fun hh => hv hh.1

theorem writeUInt16LE_err {b : List Nat} {v off : Nat} (hv : ¬ v < 65536) :
    writeUInt16LE b v off = .error .rangeError :=
  if_neg fun hh => hv hh.1

theorem ok_bind {α β : Type} (x : α) (f : α → Except EncodeError β) :
    (Except.ok x >>= f) = f x := rfl

theorem error_bind {α β : Type} (e : EncodeError) (f : α → Except EncodeError β) :
    ((Except.error e : Except EncodeError α) >>= f) = Except.error e := rfl

theorem except_pure {α : Type} (x : α) :
    (pure x : Except EncodeError α) = Except.ok x := rfl

/-- Writing a byte string at the boundary of the filled prefix of a
zero-padded buffer extends the prefix and shrinks the padding. -/
theorem tag_fill (t D : List Nat) (m off tl m2 : Nat) (hD : D.length = off)
    (htl : t.length = tl) (hm : tl ≤ m) (hm2 : m - tl = m2) :
    writeBytes (D ++ List.replicate m 0) t off
      = (D ++ t) ++ List.replicate m2 0 := by
  rw [writeBytes_fill t D (List.replicate m 0) off hD.symm
    (by simp [htl, hm]), drop_replicate, htl, hm2]

/-- A bounds-checked 32-bit write at the boundary of the filled prefix
of a zero-padded buffer succeeds and extends the prefix. -/
theorem writeU32_fill (D : List Nat) (m v off m2 : Nat) (hv : v < 4294967296)
    (hD : D.length = off) (hm : 4 ≤ m) (hm2 : m - 4 = m2) :
    writeUInt32LE (D ++ List.replicate m 0) v off
      = .ok ((D ++ u32LE v) ++ List.replicate m2 0) := by
  rw [writeUInt32LE_ok hv (by simp [hD]; omega),
    tag_fill (u32LE v) D m off 4 m2 hD rfl hm hm2]

/-- A bounds-checked 16-bit write at the boundary of the filled prefix
of a zero-padded buffer succeeds and extends the prefix. -/
theorem writeU16_fill (D : List Nat) (m v off m2 : Nat) (hv : v < 65536)
    (hD : D.length = off) (hm : 2 ≤ m) (hm2 : m - 2 = m2) :
    writeUInt16LE (D ++ List.replicate m 0) v off
      = .ok ((D ++ u16LE v) ++ List.replicate m2 0) := by
  rw [writeUInt16LE_ok hv (by simp [hD]; omega),
    tag_fill (u16LE v) D m off 2 m2 hD rfl hm hm2]

/-- Success evaluation of the encoder on a byte buffer and positive
integer parameters whose header fields all fit their widths: the result
is exactly the 44 header bytes followed by the PCM bytes. -/
theorem pcmToWav_buf_writes (p : List Nat) (r c w : Nat) (hr : 0 < r)
    (hc : 0 < c) (hw : 0 < w) (h1 : 36 + p.length < 4294967296)
    (h2 : c < 65536) (h3 : r < 4294967296) (h4 : r * c * w < 4294967296)
    (h5 : c * w < 65536) (h6 : w * 8 < 65536) :
    pcmToWav (.buf p) (.num (r : ℚ)) (.num (c : ℚ)) (.num (w : ℚ))
      = .ok (wavHeaderBytes p.length r c w ++ p) := by
  have h7 : p.length < 4294967296 := by omega
  simp only [pcmToWav, jsFalsy, isBytesLike, toBytes, Bool.false_or,
    Bool.not_true, Bool.not_false, if_false, Bool.false_eq_true, ite_false,
    isPositiveInt_natCast hr, isPositiveInt_natCast hc, isPositiveInt_natCast hw,
    asNat_natCast]
  rw [show List.replicate (44 + p.length) (0 : Nat)
      = [] ++ List.replicate (44 + p.length) 0 from rfl]
  rw [tag_fill riffTag [] (44 + p.length) 0 4 (40 + p.length) rfl rfl
    (by omega) (by omega)]
  set D1 : List Nat := [] ++ riffTag with hD1
  have l1 : D1.length = 4 := by rw [hD1]; simp
  rw [writeU32_fill D1 (40 + p.length) (36 + p.length) 4 (36 + p.length) h1 l1
    (by omega) (by omega)]
  simp only [ok_bind]
  set D2 : List Nat := D1 ++ u32LE (36 + p.length) with hD2
  have l2 : D2.length = 8 := by rw [hD2]; simp [l1]
  rw [tag_fill waveTag D2 (36 + p.length) 8 4 (32 + p.length) l2 rfl
    (by omega) (by omega)]
  set D3 : List Nat := D2 ++ waveTag with hD3
  have l3 : D3.length = 12 := by rw [hD3]; simp [l2]
  rw [tag_fill fmtTag D3 (32 + p.length) 12 4 (28 + p.length) l3 rfl
    (by omega) (by omega)]
  set D4 : List Nat := D3 ++ fmtTag with hD4
  have l4 : D4.length = 16 := by rw [hD4]; simp [l3]
  rw [writeU32_fill D4 (28 + p.length) 16 16 (24 + p.length) (by omega) l4
    (by omega) (by omega)]
  simp only [ok_bind]
  set D5 : List Nat := D4 ++ u32LE 16 with hD5
  have l5 : D5.length = 20 := by rw [hD5]; simp [l4]
  rw [writeU16_fill D5 (24 + p.length) 1 20 (22 + p.length) (by omega) l5
    (by omega) (by omega)]
  simp only [ok_bind]
  set D6 : List Nat := D5 ++ u16LE 1 with hD6
  have l6 : D6.length = 22 := by rw [hD6]; simp [l5]
  rw [writeU16_fill D6 (22 + p.length) c 22 (20 + p.length) h2 l6
    (by omega) (by omega)]
  simp only [ok_bind]
  set D7 : List Nat := D6 ++ u16LE c with hD7
  have l7 : D7.length = 24 := by rw [hD7]; simp [l6]
  rw [writeU32_fill D7 (20 + p.length) r 24 (16 + p.length) h3 l7
    (by omega) (by omega)]
  simp only [ok_bind]
  set D8 : List Nat := D7 ++ u32LE r with hD8
  have l8 : D8.length = 28 := by rw [hD8]; simp [l7]
  rw [writeU32_fill D8 (16 + p.length) (r * c * w) 28 (12 + p.length) h4 l8
    (by omega) (by omega)]
  simp only [ok_bind]
  set D9 : List Nat := D8 ++ u32LE (r * c * w) with hD9
  have l9 : D9.length = 32 := by rw [hD9]; simp [l8]
  rw [writeU16_fill D9 (12 + p.length) (c * w) 32 (10 + p.length) h5 l9
    (by omega) (by omega)]
  simp only [ok_bind]
  set D10 : List Nat := D9 ++ u16LE (c * w) with hD10
  have l10 : D10.length = 34 := by rw [hD10]; simp [l9]
  rw [writeU16_fill D10 (10 + p.length) (w * 8) 34 (8 + p.length) h6 l10
    (by omega) (by omega)]
  simp only [ok_bind]
  set D11 : List Nat := D10 ++ u16LE (w * 8) with hD11
  have l11 : D11.length = 36 := by rw [hD11]; simp [l10]
  rw [tag_fill dataTag D11 (8 + p.length) 36 4 (4 + p.length) l11 rfl
    (by omega) (by omega)]
  set D12 : List Nat := D11 ++ dataTag with hD12
  have l12 : D12.length = 40 := by rw [hD12]; simp [l11]
  rw [writeU32_fill D12 (4 + p.length) p.length 40 p.length h7 l12
    (by omega) (by omega)]
  simp only [ok_bind, except_pure]
  set D13 : List Nat := D12 ++ u32LE p.length with hD13
  have l13 : D13.length = 44 := by rw [hD13]; simp [l12]
  rw [tag_fill p D13 p.length 44 p.length 0 l13 rfl (by omega) (by omega)]
  rw [show List.replicate 0 (0 : Nat) = ([] : List Nat) from rfl,
    List.append_nil]
  rw [hD13, hD12, hD11, hD10, hD9, hD8, hD7, hD6, hD5, hD4, hD3, hD2, hD1]
  simp [wavHeaderBytes, List.append_assoc]

/-- Complete evaluation of the encoder on a byte buffer and
natural-number parameters: failed validation gives `InvalidArgument`,
a header field that does not fit its width gives the range error of the
failing `writeUIntNLE` call, and otherwise the encoder returns the
header followed by the data bytes. -/
theorem pcmToWav_buf_eq (p : List Nat) (r c w : Nat) :
    pcmToWav (.buf p) (.num (r : ℚ)) (.num (c : ℚ)) (.num (w : ℚ))
      = if 0 < r ∧ 0 < c ∧ 0 < w then
          if 36 + p.length < 4294967296 ∧ c < 65536 ∧ r < 4294967296
              ∧ r * c * w < 4294967296 ∧ c * w < 65536 ∧ w * 8 < 65536 then
            .ok (wavHeaderBytes p.length r c w ++ p)
          else .error .rangeError
        else .error .invalidArgument := by
  by_cases hpos : 0 < r ∧ 0 < c ∧ 0 < w
  · obtain ⟨hr, hc, hw⟩ := hpos
    rw [if_pos ⟨hr, hc, hw⟩]
    by_cases hb : 36 + p.length < 4294967296 ∧ c < 65536 ∧ r < 4294967296
        ∧ r * c * w < 4294967296 ∧ c * w < 65536 ∧ w * 8 < 65536
    · rw [if_pos hb]
      exact pcmToWav_buf_writes p r c w hr hc hw hb.1 hb.2.1 hb.2.2.1
        hb.2.2.2.1 hb.2.2.2.2.1 hb.2.2.2.2.2
    · rw [if_neg hb]
      simp only [pcmToWav, jsFalsy, isBytesLike, toBytes, Bool.false_or,
        Bool.not_true, Bool.not_false, if_false, Bool.false_eq_true, ite_false,
        isPositiveInt_natCast hr, isPositiveInt_natCast hc,
        isPositiveInt_natCast hw, asNat_natCast]
      rw [show List.replicate (44 + p.length) (0 : Nat)
          = [] ++ List.replicate (44 + p.length) 0 from rfl]
      rw [tag_fill riffTag [] (44 + p.length) 0 4 (40 + p.length) rfl rfl
        (by omega) (by omega)]
      set D1 : List Nat := [] ++ riffTag with hD1
      have l1 : D1.length = 4 := by rw [hD1]; simp
      by_cases h1 : 36 + p.length < 4294967296
      · rw [writeU32_fill D1 (40 + p.length) (36 + p.length) 4 (36 + p.length)
          h1 l1 (by omega) (by omega)]
        simp only [ok_bind]
        set D2 : List Nat := D1 ++ u32LE (36 + p.length) with hD2
        have l2 : D2.length = 8 := by rw [hD2]; simp [l1]
        rw [tag_fill waveTag D2 (36 + p.length) 8 4 (32 + p.length) l2 rfl
          (by omega) (by omega)]
        set D3 : List Nat := D2 ++ waveTag with hD3
        have l3 : D3.length = 12 := by rw [hD3]; simp [l2]
        rw [tag_fill fmtTag D3 (32 + p.length) 12 4 (28 + p.length) l3 rfl
          (by omega) (by omega)]
        set D4 : List Nat := D3 ++ fmtTag with hD4
        have l4 : D4.length = 16 := by rw [hD4]; simp [l3]
        rw [writeU32_fill D4 (28 + p.length) 16 16 (24 + p.length) (by omega)
          l4 (by omega) (by omega)]
        simp only [ok_bind]
        set D5 : List Nat := D4 ++ u32LE 16 with hD5
        have l5 : D5.length = 20 := by rw [hD5]; simp [l4]
        rw [writeU16_fill D5 (24 + p.length) 1 20 (22 + p.length) (by omega)
          l5 (by omega) (by omega)]
        simp only [ok_bind]
        set D6 : List Nat := D5 ++ u16LE 1 with hD6
        have l6 : D6.length = 22 := by rw [hD6]; simp [l5]
        by_cases h2 : c < 65536
        · rw [writeU16_fill D6 (22 + p.length) c 22 (20 + p.length) h2 l6
            (by omega) (by omega)]
          simp only [ok_bind]
          set D7 : List Nat := D6 ++ u16LE c with hD7
          have l7 : D7.length = 24 := by rw [hD7]; simp [l6]
          by_cases h3 : r < 4294967296
          · rw [writeU32_fill D7 (20 + p.length) r 24 (16 + p.length) h3 l7
              (by omega) (by omega)]
            simp only [ok_bind]
            set D8 : List Nat := D7 ++ u32LE r with hD8
            have l8 : D8.length = 28 := by rw [hD8]; simp [l7]
            by_cases h4 : r * c * w < 4294967296
            · rw [writeU32_fill D8 (16 + p.length) (r * c * w) 28
                (12 + p.length) h4 l8 (by omega) (by omega)]
              simp only [ok_bind]
              set D9 : List Nat := D8 ++ u32LE (r * c * w) with hD9
              have l9 : D9.length = 32 := by rw [hD9]; simp [l8]
              by_cases h5 : c * w < 65536
              · rw [writeU16_fill D9 (12 + p.length) (c * w) 32
                  (10 + p.length) h5 l9 (by omega) (by omega)]
                simp only [ok_bind]
                set D10 : List Nat := D9 ++ u16LE (c * w) with hD10
                have l10 : D10.length = 34 := by rw [hD10]; simp [l9]
                by_cases h6 : w * 8 < 65536
                · exact absurd ⟨h1, h2, h3, h4, h5, h6⟩ hb
                · rw [writeUInt16LE_err h6, error_bind]
              · rw [writeUInt16LE_err h5, error_bind]
            · rw [writeUInt32LE_err h4, error_bind]
          · rw [writeUInt32LE_err h3, error_bind]
        · rw [writeUInt16LE_err h2, error_bind]
      · rw [writeUInt32LE_err h1, error_bind]
  · rw [if_neg hpos]
    unfold pcmToWav
    rw [if_neg (by simp [jsFalsy, isBytesLike])]
    by_cases hr : 0 < r
    · rw [if_neg (by simp [isPositiveInt_natCast hr])]
      by_cases hc : 0 < c
      · rw [if_neg (by simp [isPositiveInt_natCast hc])]
        have hw : ¬ 0 < w := fun hww => hpos ⟨hr, hc, hww⟩
        rw [if_pos (by simp [isPositiveInt_natCast_false hw])]
      · rw [if_pos (by simp [isPositiveInt_natCast_false hc])]
    · rw [if_pos (by simp [isPositiveInt_natCast_false hr])]

/-- Inversion of a successful encoding of a byte buffer: the parameters
were positive integers, every header field fits its width, and the
output is the 44 header bytes followed by the data bytes. -/
theorem pcmToWav_buf_ok_inv {p out : List Nat} {r c w : Nat}
    (hout : pcmToWav (.buf p) (.num (r : ℚ)) (.num (c : ℚ)) (.num (w : ℚ))
      = .ok out) :
    0 < r ∧ 0 < c ∧ 0 < w ∧ 36 + p.length < 4294967296 ∧ c < 65536
      ∧ r < 4294967296 ∧ r * c * w < 4294967296 ∧ c * w < 65536
      ∧ w * 8 < 65536 ∧ out = wavHeaderBytes p.length r c w ++ p := by
  rw [pcmToWav_buf_eq] at hout
  by_cases hpos : 0 < r ∧ 0 < c ∧ 0 < w
  · rw [if_pos hpos] at hout
    by_cases hb : 36 + p.length < 4294967296 ∧ c < 65536 ∧ r < 4294967296
        ∧ r * c * w < 4294967296 ∧ c * w < 65536 ∧ w * 8 < 65536
    · rw [if_pos hb] at hout
      injection hout with hinj
      exact ⟨hpos.1, hpos.2.1, hpos.2.2, hb.1, hb.2.1, hb.2.2.1, hb.2.2.2.1,
        hb.2.2.2.2.1, hb.2.2.2.2.2, hinj.symm⟩
    · rw [if_neg hb] at hout
      exact Except.noConfusion hout
  · rw [if_neg hpos] at hout
    exact Except.noConfusion hout

/-- The header is 44 bytes long. -/
theorem wavHeaderBytes_length (n r c w : Nat) :
    (wavHeaderBytes n r c w).length = 44 := by
  simp [wavHeaderBytes]

/-- Reading four bytes placed right after a prefix of length `off`. -/
theorem readU32_cons (x0 x1 x2 x3 : Nat) (rest xs : List Nat) (off : Nat)
    (hoff : xs.length = off) :
    readUInt32LE (xs ++ (x0 :: x1 :: x2 :: x3 :: rest)) off
      = x0 + 256 * x1 + 65536 * x2 + 16777216 * x3 := by
  subst hoff
  have g0 : (xs ++ (x0 :: x1 :: x2 :: x3 :: rest)).getD xs.length 0 = x0 := by
    rw [List.getD_append_right _ _ _ _ (Nat.le_refl _), Nat.sub_self]
    rfl
  have g1 : (xs ++ (x0 :: x1 :: x2 :: x3 :: rest)).getD (xs.length + 1) 0
      = x1 := by
    rw [List.getD_append_right _ _ _ _ (Nat.le_add_right _ _),
      Nat.add_sub_cancel_left]
    rfl
  have g2 : (xs ++ (x0 :: x1 :: x2 :: x3 :: rest)).getD (xs.length + 2) 0
      = x2 := by
    rw [List.getD_append_right _ _ _ _ (Nat.le_add_right _ _),
      Nat.add_sub_cancel_left]
    rfl
  have g3 : (xs ++ (x0 :: x1 :: x2 :: x3 :: rest)).getD (xs.length + 3) 0
      = x3 := by
    rw [List.getD_append_right _ _ _ _ (Nat.le_add_right _ _),
      Nat.add_sub_cancel_left]
    rfl
  rw [readUInt32LE, g0, g1, g2, g3]

/-- Reading two bytes placed right after a prefix of length `off`. -/
theorem readU16_cons (x0 x1 : Nat) (rest xs : List Nat) (off : Nat)
    (hoff : xs.length = off) :
    readUInt16LE (xs ++ (x0 :: x1 :: rest)) off = x0 + 256 * x1 := by
  subst hoff
  have g0 : (xs ++ (x0 :: x1 :: rest)).getD xs.length 0 = x0 := by
    rw [List.getD_append_right _ _ _ _ (Nat.le_refl _), Nat.sub_self]
    rfl
  have g1 : (xs ++ (x0 :: x1 :: rest)).getD (xs.length + 1) 0 = x1 := by
    rw [List.getD_append_right _ _ _ _ (Nat.le_add_right _ _),
      Nat.add_sub_cancel_left]
    rfl
  rw [readUInt16LE, g0, g1]


/-- Bytes 0-3 of the output are the ASCII tag RIFF. -/
theorem hdr_riff (n r c w : Nat) (p : List Nat) :
    (wavHeaderBytes n r c w ++ p).take 4 = riffTag := by
  rw [show wavHeaderBytes n r c w ++ p
      = riffTag ++ (u32LE (36 + n) ++ waveTag ++ fmtTag ++ u32LE 16 ++ u16LE 1
        ++ u16LE c ++ u32LE r ++ u32LE (r * c * w) ++ u16LE (c * w)
        ++ u16LE (w * 8) ++ dataTag ++ u32LE n ++ p)
    from by simp [wavHeaderBytes, List.append_assoc],
    @List.take_left' Nat riffTag _ 4 rfl]

/-- Bytes 8-11 of the output are the ASCII tag WAVE. -/
theorem hdr_wave (n r c w : Nat) (p : List Nat) :
    ((wavHeaderBytes n r c w ++ p).drop 8).take 4 = waveTag := by
  rw [show wavHeaderBytes n r c w ++ p
      = (riffTag ++ u32LE (36 + n)) ++ (waveTag ++ (fmtTag ++ u32LE 16
        ++ u16LE 1 ++ u16LE c ++ u32LE r ++ u32LE (r * c * w) ++ u16LE (c * w)
        ++ u16LE (w * 8) ++ dataTag ++ u32LE n ++ p))
    from by simp [wavHeaderBytes, List.append_assoc],
    @List.drop_left' Nat (riffTag ++ u32LE (36 + n)) _ 8 rfl,
    @List.take_left' Nat waveTag _ 4 rfl]

/-- Bytes 12-15 of the output are the ASCII tag fmt-space. -/
theorem hdr_fmt (n r c w : Nat) (p : List Nat) :
    ((wavHeaderBytes n r c w ++ p).drop 12).take 4 = fmtTag := by
  rw [show wavHeaderBytes n r c w ++ p
      = (riffTag ++ u32LE (36 + n) ++ waveTag) ++ (fmtTag ++ (u32LE 16
        ++ u16LE 1 ++ u16LE c ++ u32LE r ++ u32LE (r * c * w) ++ u16LE (c * w)
        ++ u16LE (w * 8) ++ dataTag ++ u32LE n ++ p))
    from by simp [wavHeaderBytes, List.append_assoc],
    @List.drop_left' Nat (riffTag ++ u32LE (36 + n) ++ waveTag) _ 12 rfl,
    @List.take_left' Nat fmtTag _ 4 rfl]

/-- Bytes 36-39 of the output are the ASCII tag data. -/
theorem hdr_data (n r c w : Nat) (p : List Nat) :
    ((wavHeaderBytes n r c w ++ p).drop 36).take 4 = dataTag := by
  rw [show wavHeaderBytes n r c w ++ p
      = (riffTag ++ u32LE (36 + n) ++ waveTag ++ fmtTag ++ u32LE 16 ++ u16LE 1
        ++ u16LE c ++ u32LE r ++ u32LE (r * c * w) ++ u16LE (c * w)
        ++ u16LE (w * 8)) ++ (dataTag ++ (u32LE n ++ p))
    from by simp [wavHeaderBytes, List.append_assoc],
    @List.drop_left' Nat (riffTag ++ u32LE (36 + n) ++ waveTag ++ fmtTag
      ++ u32LE 16 ++ u16LE 1 ++ u16LE c ++ u32LE r ++ u32LE (r * c * w)
      ++ u16LE (c * w) ++ u16LE (w * 8)) _ 36 rfl,
    @List.take_left' Nat dataTag _ 4 rfl]

/-- Bytes from offset 44 on are exactly the data bytes. -/
theorem hdr_drop44 (n r c w : Nat) (p : List Nat) :
    (wavHeaderBytes n r c w ++ p).drop 44 = p := by
  rw [@List.drop_left' Nat (wavHeaderBytes n r c w) _ 44
    (wavHeaderBytes_length n r c w)]

/-- Raw little-endian bytes of the ChunkSize field at offset 4. -/
theorem hdr_read4 (n r c w : Nat) (p : List Nat) :
    readUInt32LE (wavHeaderBytes n r c w ++ p) 4
      = (36 + n) % 256 + 256 * ((36 + n) / 256 % 256)
        + 65536 * ((36 + n) / 65536 % 256)
        + 16777216 * ((36 + n) / 16777216 % 256) := by
  rw [show wavHeaderBytes n r c w ++ p
      = riffTag ++ ((36 + n) % 256 :: (36 + n) / 256 % 256
        :: (36 + n) / 65536 % 256 :: (36 + n) / 16777216 % 256
        :: (waveTag ++ fmtTag ++ u32LE 16 ++ u16LE 1 ++ u16LE c ++ u32LE r
          ++ u32LE (r * c * w) ++ u16LE (c * w) ++ u16LE (w * 8) ++ dataTag
          ++ u32LE n ++ p))
    from by simp [wavHeaderBytes, u32LE, List.append_assoc],
    readU32_cons _ _ _ _ _ riffTag 4 rfl]

/-- The Subchunk1Size field at offset 16 reads back as 16. -/
theorem hdr_read16 (n r c w : Nat) (p : List Nat) :
    readUInt32LE (wavHeaderBytes n r c w ++ p) 16 = 16 := by
  rw [show wavHeaderBytes n r c w ++ p
      = (riffTag ++ u32LE (36 + n) ++ waveTag ++ fmtTag) ++ (16 :: 0 :: 0 :: 0
        :: (u16LE 1 ++ u16LE c ++ u32LE r ++ u32LE (r * c * w) ++ u16LE (c * w)
          ++ u16LE (w * 8) ++ dataTag ++ u32LE n ++ p))
    from by simp [wavHeaderBytes, u32LE, List.append_assoc],
    readU32_cons _ _ _ _ _ (riffTag ++ u32LE (36 + n) ++ waveTag ++ fmtTag)
      16 rfl]

/-- The AudioFormat field at offset 20 reads back as 1 (PCM). -/
theorem hdr_read20 (n r c w : Nat) (p : List Nat) :
    readUInt16LE (wavHeaderBytes n r c w ++ p) 20 = 1 := by
  rw [show wavHeaderBytes n r c w ++ p
      = (riffTag ++ u32LE (36 + n) ++ waveTag ++ fmtTag ++ u32LE 16)
        ++ (1 :: 0 :: (u16LE c ++ u32LE r ++ u32LE (r * c * w) ++ u16LE (c * w)
          ++ u16LE (w * 8) ++ dataTag ++ u32LE n ++ p))
    from by simp [wavHeaderBytes, u16LE, List.append_assoc],
    readU16_cons _ _ _ (riffTag ++ u32LE (36 + n) ++ waveTag ++ fmtTag
      ++ u32LE 16) 20 rfl]

/-- Raw little-endian bytes of the NumChannels field at offset 22. -/
theorem hdr_read22 (n r c w : Nat) (p : List Nat) :
    readUInt16LE (wavHeaderBytes n r c w ++ p) 22
      = c % 256 + 256 * (c / 256 % 256) := by
  rw [show wavHeaderBytes n r c w ++ p
      = (riffTag ++ u32LE (36 + n) ++ waveTag ++ fmtTag ++ u32LE 16 ++ u16LE 1)
        ++ (c % 256 :: c / 256 % 256 :: (u32LE r ++ u32LE (r * c * w)
          ++ u16LE (c * w) ++ u16LE (w * 8) ++ dataTag ++ u32LE n ++ p))
    from by simp [wavHeaderBytes, u16LE, List.append_assoc],
    readU16_cons _ _ _ (riffTag ++ u32LE (36 + n) ++ waveTag ++ fmtTag
      ++ u32LE 16 ++ u16LE 1) 22 rfl]

/-- Raw little-endian bytes of the SampleRate field at offset 24. -/
theorem hdr_read24 (n r c w : Nat) (p : List Nat) :
    readUInt32LE (wavHeaderBytes n r c w ++ p) 24
      = r % 256 + 256 * (r / 256 % 256) + 65536 * (r / 65536 % 256)
        + 16777216 * (r / 16777216 % 256) := by
  rw [show wavHeaderBytes n r c w ++ p
      = (riffTag ++ u32LE (36 + n) ++ waveTag ++ fmtTag ++ u32LE 16 ++ u16LE 1
        ++ u16LE c) ++ (r % 256 :: r / 256 % 256 :: r / 65536 % 256
          :: r / 16777216 % 256 :: (u32LE (r * c * w) ++ u16LE (c * w)
          ++ u16LE (w * 8) ++ dataTag ++ u32LE n ++ p))
    from by simp [wavHeaderBytes, u32LE, List.append_assoc],
    readU32_cons _ _ _ _ _ (riffTag ++ u32LE (36 + n) ++ waveTag ++ fmtTag
      ++ u32LE 16 ++ u16LE 1 ++ u16LE c) 24 rfl]

/-- Raw little-endian bytes of the ByteRate field at offset 28. -/
theorem hdr_read28 (n r c w : Nat) (p : List Nat) :
    readUInt32LE (wavHeaderBytes n r c w ++ p) 28
      = r * c * w % 256 + 256 * (r * c * w / 256 % 256)
        + 65536 * (r * c * w / 65536 % 256)
        + 16777216 * (r * c * w / 16777216 % 256) := by
  rw [show wavHeaderBytes n r c w ++ p
      = (riffTag ++ u32LE (36 + n) ++ waveTag ++ fmtTag ++ u32LE 16 ++ u16LE 1
        ++ u16LE c ++ u32LE r) ++ (r * c * w % 256 :: r * c * w / 256 % 256
          :: r * c * w / 65536 % 256 :: r * c * w / 16777216 % 256
          :: (u16LE (c * w) ++ u16LE (w * 8) ++ dataTag ++ u32LE n ++ p))
    from by simp [wavHeaderBytes, u32LE, List.append_assoc],
    readU32_cons _ _ _ _ _ (riffTag ++ u32LE (36 + n) ++ waveTag ++ fmtTag
      ++ u32LE 16 ++ u16LE 1 ++ u16LE c ++ u32LE r) 28 rfl]

/-- Raw little-endian bytes of the BlockAlign field at offset 32. -/
theorem hdr_read32 (n r c w : Nat) (p : List Nat) :
    readUInt16LE (wavHeaderBytes n r c w ++ p) 32
      = c * w % 256 + 256 * (c * w / 256 % 256) := by
  rw [show wavHeaderBytes n r c w ++ p
      = (riffTag ++ u32LE (36 + n) ++ waveTag ++ fmtTag ++ u32LE 16 ++ u16LE 1
        ++ u16LE c ++ u32LE r ++ u32LE (r * c * w))
        ++ (c * w % 256 :: c * w / 256 % 256 :: (u16LE (w * 8) ++ dataTag
          ++ u32LE n ++ p))
    from by simp [wavHeaderBytes, u16LE, List.append_assoc],
    readU16_cons _ _ _ (riffTag ++ u32LE (36 + n) ++ waveTag ++ fmtTag
      ++ u32LE 16 ++ u16LE 1 ++ u16LE c ++ u32LE r ++ u32LE (r * c * w))
      32 rfl]

/-- Raw little-endian bytes of the BitsPerSample field at offset 34. -/
theorem hdr_read34 (n r c w : Nat) (p : List Nat) :
    readUInt16LE (wavHeaderBytes n r c w ++ p) 34
      = w * 8 % 256 + 256 * (w * 8 / 256 % 256) := by
  rw [show wavHeaderBytes n r c w ++ p
      = (riffTag ++ u32LE (36 + n) ++ waveTag ++ fmtTag ++ u32LE 16 ++ u16LE 1
        ++ u16LE c ++ u32LE r ++ u32LE (r * c * w) ++ u16LE (c * w))
        ++ (w * 8 % 256 :: w * 8 / 256 % 256 :: (dataTag ++ u32LE n ++ p))
    from by simp [wavHeaderBytes, u16LE, List.append_assoc],
    readU16_cons _ _ _ (riffTag ++ u32LE (36 + n) ++ waveTag ++ fmtTag
      ++ u32LE 16 ++ u16LE 1 ++ u16LE c ++ u32LE r ++ u32LE (r * c * w)
      ++ u16LE (c * w)) 34 rfl]

/-- Raw little-endian bytes of the Subchunk2Size field at offset 40. -/
theorem hdr_read40 (n r c w : Nat) (p : List Nat) :
    readUInt32LE (wavHeaderBytes n r c w ++ p) 40
      = n % 256 + 256 * (n / 256 % 256) + 65536 * (n / 65536 % 256)
        + 16777216 * (n / 16777216 % 256) := by
  rw [show wavHeaderBytes n r c w ++ p
      = (riffTag ++ u32LE (36 + n) ++ waveTag ++ fmtTag ++ u32LE 16 ++ u16LE 1
        ++ u16LE c ++ u32LE r ++ u32LE (r * c * w) ++ u16LE (c * w)
        ++ u16LE (w * 8) ++ dataTag) ++ (n % 256 :: n / 256 % 256
          :: n / 65536 % 256 :: n / 16777216 % 256 :: p)
    from by simp [wavHeaderBytes, u32LE, List.append_assoc],
    readU32_cons _ _ _ _ _ (riffTag ++ u32LE (36 + n) ++ waveTag ++ fmtTag
      ++ u32LE 16 ++ u16LE 1 ++ u16LE c ++ u32LE r ++ u32LE (r * c * w)
      ++ u16LE (c * w) ++ u16LE (w * 8) ++ dataTag) 40 rfl]

/-- A value below 2 to the 32 is reconstructed exactly from its four
little-endian bytes. -/
theorem u32_recon {v : Nat} (h : v < 4294967296) :
    v % 256 + 256 * (v / 256 % 256) + 65536 * (v / 65536 % 256)
      + 16777216 * (v / 16777216 % 256) = v := by omega

/-- A value below 2 to the 16 is reconstructed exactly from its two
little-endian bytes. -/
theorem u16_recon {v : Nat} (h : v < 65536) :
    v % 256 + 256 * (v / 256 % 256) = v := by omega


theorem isPositiveInt_num_iff (q : ℚ) :
    isPositiveInt (JSVal.num q) = true ↔ 0 < q ∧ q.den = 1 := by
  simp [isPositiveInt]

/-- C1: for every valid input (a pcm byte buffer and positive integer
sampleRate, channels, sampleWidth), the output of encode carries, at
the fixed offsets of the 44-byte header, exactly the fields of the
spec's table: ASCII RIFF at 0, uint32 36+dataLength at 4, ASCII WAVE at
8, ASCII fmt-space at 12, uint32 16 at 16, uint16 1 at 20, uint16
channels at 22, uint32 sampleRate at 24, uint32 byte rate at 28, uint16
block align at 32, uint16 sampleWidth*8 at 34, ASCII data at 36 and
uint32 dataLength at 40 (all little-endian). -/
theorem claim_C1_header_fields {p out : List Nat} {r c w : Nat}
    (hout : pcmToWav (.buf p) (.num (r : ℚ)) (.num (c : ℚ)) (.num (w : ℚ))
      = .ok out) :
    out.take 4 = riffTag
      ∧ readUInt32LE out 4 = 36 + p.length
      ∧ (out.drop 8).take 4 = waveTag
      ∧ (out.drop 12).take 4 = fmtTag
      ∧ readUInt32LE out 16 = 16
      ∧ readUInt16LE out 20 = 1
      ∧ readUInt16LE out 22 = c
      ∧ readUInt32LE out 24 = r
      ∧ readUInt32LE out 28 = r * c * w
      ∧ readUInt16LE out 32 = c * w
      ∧ readUInt16LE out 34 = w * 8
      ∧ (out.drop 36).take 4 = dataTag
      ∧ readUInt32LE out 40 = p.length := by
  obtain ⟨hr, hc, hw, b1, b2, b3, b4, b5, b6, hform⟩ := pcmToWav_buf_ok_inv hout
  subst hform
  refine ⟨hdr_riff _ _ _ _ _, ?_, hdr_wave _ _ _ _ _, hdr_fmt _ _ _ _ _,
    hdr_read16 _ _ _ _ _, hdr_read20 _ _ _ _ _, ?_, ?_, ?_, ?_, ?_,
    hdr_data _ _ _ _ _, ?_⟩
  · rw [hdr_read4]; exact u32_recon b1
  · rw [hdr_read22]; exact u16_recon b2
  · rw [hdr_read24]; exact u32_recon b3
  · rw [hdr_read28]; exact u32_recon b4
  · rw [hdr_read32]; exact u16_recon b5
  · rw [hdr_read34]; exact u16_recon b6
  · rw [hdr_read40]; exact u32_recon (by omega)

theorem claim_C1_header_fields_witness :
    (wavHeaderBytes 4 24000 1 2 ++ [0, 1, 2, 3]).take 4 = riffTag
      ∧ readUInt32LE (wavHeaderBytes 4 24000 1 2 ++ [0, 1, 2, 3]) 4 = 40
      ∧ ((wavHeaderBytes 4 24000 1 2 ++ [0, 1, 2, 3]).drop 8).take 4 = waveTag
      ∧ ((wavHeaderBytes 4 24000 1 2 ++ [0, 1, 2, 3]).drop 12).take 4 = fmtTag
      ∧ readUInt32LE (wavHeaderBytes 4 24000 1 2 ++ [0, 1, 2, 3]) 16 = 16
      ∧ readUInt16LE (wavHeaderBytes 4 24000 1 2 ++ [0, 1, 2, 3]) 20 = 1
      ∧ readUInt16LE (wavHeaderBytes 4 24000 1 2 ++ [0, 1, 2, 3]) 22 = 1
      ∧ readUInt32LE (wavHeaderBytes 4 24000 1 2 ++ [0, 1, 2, 3]) 24 = 24000
      ∧ readUInt32LE (wavHeaderBytes 4 24000 1 2 ++ [0, 1, 2, 3]) 28 = 48000
      ∧ readUInt16LE (wavHeaderBytes 4 24000 1 2 ++ [0, 1, 2, 3]) 32 = 2
      ∧ readUInt16LE (wavHeaderBytes 4 24000 1 2 ++ [0, 1, 2, 3]) 34 = 16
      ∧ ((wavHeaderBytes 4 24000 1 2 ++ [0, 1, 2, 3]).drop 36).take 4 = dataTag
      ∧ readUInt32LE (wavHeaderBytes 4 24000 1 2 ++ [0, 1, 2, 3]) 40 = 4 :=
  claim_C1_header_fields
    (show pcmToWav (.buf [0, 1, 2, 3]) (.num ((24000 : Nat) : ℚ))
        (.num ((1 : Nat) : ℚ)) (.num ((2 : Nat) : ℚ))
      = .ok (wavHeaderBytes 4 24000 1 2 ++ [0, 1, 2, 3]) from rfl)

/-- C2: for every valid input, the byte length of the returned buffer
is exactly 44 plus the byte length of the pcm buffer. -/
theorem claim_C2_output_length {p out : List Nat} {r c w : Nat}
    (hout : pcmToWav (.buf p) (.num (r : ℚ)) (.num (c : ℚ)) (.num (w : ℚ))
      = .ok out) :
    out.length = 44 + p.length := by
  obtain ⟨_, _, _, _, _, _, _, _, _, hform⟩ := pcmToWav_buf_ok_inv hout
  subst hform
  rw [List.length_append, wavHeaderBytes_length]

theorem claim_C2_output_length_witness :
    (wavHeaderBytes 4 24000 1 2 ++ [0, 1, 2, 3]).length = 48 :=
  claim_C2_output_length
    (show pcmToWav (.buf [0, 1, 2, 3]) (.num ((24000 : Nat) : ℚ))
        (.num ((1 : Nat) : ℚ)) (.num ((2 : Nat) : ℚ))
      = .ok (wavHeaderBytes 4 24000 1 2 ++ [0, 1, 2, 3]) from rfl)

/-- C3: for every valid input, the bytes of the output from offset 44
to the end are byte-identical to the input pcm buffer, and a standard
WAV parser reading the output recovers exactly the given sampleRate,
channels, sampleWidth*8 bits per sample, and a data chunk equal to the
pcm (its size field holds the pcm length). -/
theorem claim_C3_data_verbatim {p out : List Nat} {r c w : Nat}
    (hout : pcmToWav (.buf p) (.num (r : ℚ)) (.num (c : ℚ)) (.num (w : ℚ))
      = .ok out) :
    out.drop 44 = p
      ∧ readUInt32LE out 24 = r
      ∧ readUInt16LE out 22 = c
      ∧ readUInt16LE out 34 = w * 8
      ∧ readUInt32LE out 40 = p.length := by
  obtain ⟨hr, hc, hw, b1, b2, b3, b4, b5, b6, hform⟩ := pcmToWav_buf_ok_inv hout
  subst hform
  refine ⟨hdr_drop44 _ _ _ _ _, ?_, ?_, ?_, ?_⟩
  · rw [hdr_read24]; exact u32_recon b3
  · rw [hdr_read22]; exact u16_recon b2
  · rw [hdr_read34]; exact u16_recon b6
  · rw [hdr_read40]; exact u32_recon (by omega)

theorem claim_C3_data_verbatim_witness :
    (wavHeaderBytes 4 24000 1 2 ++ [0, 1, 2, 3]).drop 44 = [0, 1, 2, 3]
      ∧ readUInt32LE (wavHeaderBytes 4 24000 1 2 ++ [0, 1, 2, 3]) 24 = 24000
      ∧ readUInt16LE (wavHeaderBytes 4 24000 1 2 ++ [0, 1, 2, 3]) 22 = 1
      ∧ readUInt16LE (wavHeaderBytes 4 24000 1 2 ++ [0, 1, 2, 3]) 34 = 16
      ∧ readUInt32LE (wavHeaderBytes 4 24000 1 2 ++ [0, 1, 2, 3]) 40 = 4 :=
  claim_C3_data_verbatim
    (show pcmToWav (.buf [0, 1, 2, 3]) (.num ((24000 : Nat) : ℚ))
        (.num ((1 : Nat) : ℚ)) (.num ((2 : Nat) : ℚ))
      = .ok (wavHeaderBytes 4 24000 1 2 ++ [0, 1, 2, 3]) from rfl)

/-- C4: encode is deterministic and side-effect free: two calls with
identical inputs produce byte-identical outputs (the embedding is a
pure function of its four arguments; the source writes only into the
buffer it has just allocated, never into the input). -/
theorem claim_C4_deterministic (pcm1 pcm2 sr1 sr2 ch1 ch2 sw1 sw2 : JSVal)
    (hp : pcm1 = pcm2) (hsr : sr1 = sr2) (hch : ch1 = ch2) (hsw : sw1 = sw2) :
    pcmToWav pcm1 sr1 ch1 sw1 = pcmToWav pcm2 sr2 ch2 sw2 := by
  subst hp
  subst hsr
  subst hch
  subst hsw
  rfl

theorem claim_C4_deterministic_witness :
    pcmToWav (.buf [0, 1]) (.num 24000) (.num 1) (.num 2)
      = pcmToWav (.buf [0, 1]) (.num 24000) (.num 1) (.num 2) :=
  claim_C4_deterministic _ _ _ _ _ _ _ _ rfl rfl rfl rfl

/-- C5: encoding a zero-length pcm buffer with sampleRate 24000, one
channel and sample width 2 succeeds and returns exactly 44 bytes whose
Subchunk2Size field (offset 40) is 0 and whose ChunkSize field
(offset 4) is 36. -/
theorem claim_C5_empty_pcm :
    pcmToWav (.buf []) (.num 24000) (.num 1) (.num 2)
        = .ok (wavHeaderBytes 0 24000 1 2)
      ∧ (wavHeaderBytes 0 24000 1 2).length = 44
      ∧ readUInt32LE (wavHeaderBytes 0 24000 1 2) 40 = 0
      ∧ readUInt32LE (wavHeaderBytes 0 24000 1 2) 4 = 36 :=
  ⟨rfl, rfl, rfl, rfl⟩

/-- C6: for every pcm buffer, if sampleRate, channels or sampleWidth is
a zero, negative or non-integral number, encode fails with the
`InvalidArgument` error and returns no buffer at all (the validation
throws before the output buffer is allocated). -/
theorem claim_C6_invalid_params (p : List Nat) (q1 q2 q3 : ℚ)
    (hbad : (q1 ≤ 0 ∨ q1.den ≠ 1) ∨ (q2 ≤ 0 ∨ q2.den ≠ 1)
      ∨ (q3 ≤ 0 ∨ q3.den ≠ 1)) :
    pcmToWav (.buf p) (.num q1) (.num q2) (.num q3)
      = .error .invalidArgument := by
  unfold pcmToWav
  rw [if_neg (by simp [jsFalsy, isBytesLike])]
  by_cases hq1 : isPositiveInt (JSVal.num q1) = true
  · rw [if_neg (by simp [hq1])]
    by_cases hq2 : isPositiveInt (JSVal.num q2) = true
    · rw [if_neg (by simp [hq2])]
      have h3 : ¬ isPositiveInt (JSVal.num q3) = true := by
        obtain ⟨p1, d1⟩ := (isPositiveInt_num_iff q1).mp hq1
        obtain ⟨p2, d2⟩ := (isPositiveInt_num_iff q2).mp hq2
        intro ht
        obtain ⟨p3, d3⟩ := (isPositiveInt_num_iff q3).mp ht
        rcases hbad with (hb | hb) | (hb | hb) | (hb | hb)
        · exact absurd p1 (not_lt.mpr hb)
        · exact absurd d1 hb
        · exact absurd p2 (not_lt.mpr hb)
        · exact absurd d2 hb
        · exact absurd p3 (not_lt.mpr hb)
        · exact absurd d3 hb
      rw [if_pos (by simp only [Bool.not_eq_true] at h3; simp [h3])]
    · rw [if_pos (by simp only [Bool.not_eq_true] at hq2; simp [hq2])]
  · rw [if_pos (by simp only [Bool.not_eq_true] at hq1; simp [hq1])]

theorem claim_C6_invalid_params_witness :
    pcmToWav (.buf []) (.num 0) (.num 1) (.num 2)
      = .error .invalidArgument :=
  claim_C6_invalid_params [] 0 1 2 (Or.inl (Or.inl (le_refl 0)))

/-- C7 as stated is false: channels 65536 is a positive integer, so it
passes the argument validation, yet the encoder raises Node's range
error (not `InvalidArgument`) when `writeUInt16LE` rejects the value at
offset 22. -/
theorem claim_C7_counterexample :
    isPositiveInt (JSVal.num 65536) = true
      ∧ pcmToWav (.buf [0]) (.num 1) (.num 65536) (.num 1)
          = .error .rangeError :=
  ⟨rfl, rfl⟩

/-- C7 amended: for inputs that pass validation and whose header fields
all fit their 16- or 32-bit widths, encode never fails and returns a
complete buffer of 44 plus the pcm length bytes. -/
theorem claim_C7_amended_bounded {p : List Nat} {r c w : Nat}
    (hr : 0 < r) (hc : 0 < c) (hw : 0 < w) (h1 : 36 + p.length < 4294967296)
    (h2 : c < 65536) (h3 : r < 4294967296) (h4 : r * c * w < 4294967296)
    (h5 : c * w < 65536) (h6 : w * 8 < 65536) :
    ∃ out : List Nat,
      pcmToWav (.buf p) (.num (r : ℚ)) (.num (c : ℚ)) (.num (w : ℚ))
          = .ok out
        ∧ out.length = 44 + p.length := by
  refine ⟨wavHeaderBytes p.length r c w ++ p,
    pcmToWav_buf_writes p r c w hr hc hw h1 h2 h3 h4 h5 h6, ?_⟩
  rw [List.length_append, wavHeaderBytes_length]

theorem claim_C7_amended_bounded_witness :
    ∃ out : List Nat,
      pcmToWav (.buf [0, 1, 2, 3]) (.num ((24000 : Nat) : ℚ))
          (.num ((1 : Nat) : ℚ)) (.num ((2 : Nat) : ℚ)) = .ok out
        ∧ out.length = 48 :=
  claim_C7_amended_bounded (by norm_num) (by norm_num) (by norm_num)
    (by norm_num) (by norm_num) (by norm_num) (by norm_num) (by norm_num)
    (by norm_num)

/-- C8: for every pcm buffer of length at most 2^32 - 45 on which the
encoder returns a buffer, the ChunkSize field at offset 4 is exactly
36 plus the length and the Subchunk2Size field at offset 40 is exactly
the length, as non-overflowing 32-bit little-endian integers. -/
theorem claim_C8_size_fields {p out : List Nat} {r c w : Nat}
    (hlen : p.length ≤ 4294967251)
    (hout : pcmToWav (.buf p) (.num (r : ℚ)) (.num (c : ℚ)) (.num (w : ℚ))
      = .ok out) :
    readUInt32LE out 4 = 36 + p.length
      ∧ readUInt32LE out 40 = p.length := by
  obtain ⟨_, _, _, b1, _, _, _, _, _, hform⟩ := pcmToWav_buf_ok_inv hout
  subst hform
  constructor
  · rw [hdr_read4]; exact u32_recon b1
  · rw [hdr_read40]; exact u32_recon (by omega)

theorem claim_C8_size_fields_witness :
    readUInt32LE (wavHeaderBytes 4 24000 1 2 ++ [0, 1, 2, 3]) 4 = 40
      ∧ readUInt32LE (wavHeaderBytes 4 24000 1 2 ++ [0, 1, 2, 3]) 40 = 4 :=
  claim_C8_size_fields (by norm_num)
    (show pcmToWav (.buf [0, 1, 2, 3]) (.num ((24000 : Nat) : ℚ))
        (.num ((1 : Nat) : ℚ)) (.num ((2 : Nat) : ℚ))
      = .ok (wavHeaderBytes 4 24000 1 2 ++ [0, 1, 2, 3]) from rfl)

/-- C9: if pcm is null, a number, or any other value that is not a
Buffer, Uint8Array or string, encode fails with the `InvalidArgument`
error, whatever the other arguments are. -/
theorem claim_C9_bad_pcm_type (sr ch sw : JSVal) (q : ℚ) :
    pcmToWav .null sr ch sw = .error .invalidArgument
      ∧ pcmToWav (.num q) sr ch sw = .error .invalidArgument
      ∧ pcmToWav .other sr ch sw = .error .invalidArgument := by
  refine ⟨rfl, ?_, rfl⟩
  unfold pcmToWav
  rw [if_pos (by simp [jsFalsy, isBytesLike])]

/-- C10: the falsiness check rejects a zero-length pcm string with the
`InvalidArgument` error, while a zero-length pcm Buffer is accepted and
yields a 44-byte WAV, so zero-length input succeeds or fails depending
on whether it arrives as a buffer or as a string. -/
theorem claim_C10_empty_string_vs_buffer :
    pcmToWav (.str []) (.num 24000) (.num 1) (.num 2)
        = .error .invalidArgument
      ∧ pcmToWav (.buf []) (.num 24000) (.num 1) (.num 2)
          = .ok (wavHeaderBytes 0 24000 1 2)
      ∧ (wavHeaderBytes 0 24000 1 2).length = 44 :=
  ⟨rfl, rfl, rfl⟩


end WavEnc
